import Mathlib

/-!
# Verification of the Acropolis agent-orchestration core

This file gives a shallow embedding, in Lean 4, of the parts of the
`adaptive_expert_platform` Rust crate that the specification's claims are
about, and proves or refutes each claim against that embedding.

Modelling conventions:
* Rust `HashMap`/`DashMap` values are modelled as association lists with
  lookup-insert-erase operations (maps are used purely through lookup).
* Machine floating point (`f32`) is idealised as `ℚ` where only equality
  of stored vectors matters, and as `ℝ` where the arithmetic itself is the
  subject (cosine similarity).
* External effects (SHA-256, dynamic linking, Argon2 verification, the
  blake3 hash, wall-clock instants) are passed in as explicit function or
  numeric parameters; the code under scrutiny is deterministic in them.
* `tokio` channels: a dispatch call is modelled by the list of messages it
  sends on the task's reply channel, in order.
-/

namespace Acropolis

/-! ## Association-list maps (model of HashMap / DashMap) -/

/-- Lookup in an association list (model of `HashMap::get`). -/
def alookup {α β : Type} [DecidableEq α] (k : α) : List (α × β) → Option β
  | [] => none
  | (k₂, v) :: rest => if k₂ = k then some v else alookup k rest

/-- Remove a key (model of `HashMap::remove` / `DashMap::remove`). -/
def aerase {α β : Type} [DecidableEq α] (k : α) : List (α × β) → List (α × β)
  | [] => []
  | kv :: rest => if kv.1 = k then aerase k rest else kv :: aerase k rest

/-- Insert or replace a binding (model of `HashMap::insert` /
`DashMap::insert` / updating through `DashMap::entry`). -/
def ainsert {α β : Type} [DecidableEq α] (k : α) (v : β) (l : List (α × β)) : List (α × β) :=
  (k, v) :: aerase k l

/-! ## JSON values and their serde_json serialisation

`serde_json::Value` restricted to what the orchestrator manipulates;
numbers are modelled as integers (the claims never exercise float JSON
numbers).  `Json.render` models `serde_json`'s `to_string`, including its
string-escaping rules (quote, backslash, and control characters). -/

inductive Json : Type where
  | str (s : String)
  | num (n : Int)
  | bool (b : Bool)
  | null
  | arr (elems : List Json)
  | obj (fields : List (String × Json))

/-- Lowercase hexadecimal digit. -/
def hexDigit (n : Nat) : Char :=
  if n < 10 then Char.ofNat (48 + n) else Char.ofNat (87 + n)

/-- Four-digit lowercase hex, as in serde_json's `\u00XX` escapes. -/
def hex4 (n : Nat) : String :=
  String.mk [hexDigit (n / 4096 % 16), hexDigit (n / 256 % 16),
             hexDigit (n / 16 % 16), hexDigit (n % 16)]

/-- The double-quote character. -/
def dq : String := String.singleton (Char.ofNat 34)

/-- The single-quote character. -/
def sq : String := String.singleton (Char.ofNat 39)

/-- The backslash character. -/
def bslash : String := String.singleton (Char.ofNat 92)

/-- serde_json escaping of one character inside a JSON string literal. -/
def escapeChar (c : Char) : String :=
  if c = Char.ofNat 34 then bslash ++ dq
  else if c = Char.ofNat 92 then bslash ++ bslash
  else if c = Char.ofNat 8 then bslash ++ "b"
  else if c = Char.ofNat 12 then bslash ++ "f"
  else if c = Char.ofNat 10 then bslash ++ "n"
  else if c = Char.ofNat 13 then bslash ++ "r"
  else if c = Char.ofNat 9 then bslash ++ "t"
  else if c.toNat < 32 then bslash ++ "u" ++ hex4 c.toNat
  else String.singleton c

/-- serde_json rendering of a string, quotes included. -/
def renderStr (s : String) : String :=
  dq ++ String.join (s.toList.map escapeChar) ++ dq

mutual

/-- Model of `serde_json::to_string` on a `Value` (`Value::to_string`). -/
def Json.render : Json → String
  | .str s => renderStr s
  | .num n => toString n
  | .bool b => if b then "true" else "false"
  | .null => "null"
  | .arr elems => "[" ++ Json.renderList elems ++ "]"
  | .obj fields => "\x7b" ++ Json.renderFields fields ++ "\x7d"

/-- Comma-separated rendering of array elements. -/
def Json.renderList : List Json → String
  | [] => ""
  | [x] => Json.render x
  | x :: rest => Json.render x ++ "," ++ Json.renderList rest

/-- Comma-separated rendering of object fields. -/
def Json.renderFields : List (String × Json) → String
  | [] => ""
  | [(k, v)] => renderStr k ++ ":" ++ Json.render v
  | (k, v) :: rest => renderStr k ++ ":" ++ Json.render v ++ "," ++ Json.renderFields rest

end

/-! ## Agents (src/agent.rs) -/

/-- An agent, as seen by the dispatcher: the `Agent` trait of
`src/agent.rs` with its `handle` method returning `Result<String>`
(success is a `String`, failure an error message).  Request counters and
health data do not affect `handle`'s value and are omitted. -/
structure AgentM where
  name : String
  agentType : String
  capabilities : List String
  handle : Json → Except String String

/-- `EchoAgent::handle` (src/agent.rs, lines 79-85): returns
`format!("Echo: \x7b\x7d", input.to_string())`. -/
def echoHandle (input : Json) : Except String String :=
  .ok ("Echo: " ++ input.render)

/-- The built-in `EchoAgent` (src/agent.rs). -/
def echoAgent : AgentM :=
  { name := "echo"
    agentType := "utility"
    capabilities := ["text_echo", "testing"]
    handle := echoHandle }

/-! ## The dispatcher (src/orchestrator.rs, `Orchestrator::dispatch`) -/

/-- A message sent on a task's reply channel: `Result<Value>` in the
source (`Ok(Value)` or an `anyhow` error rendered as its message). -/
inductive Reply : Type where
  | ok (v : Json)
  | err (msg : String)

/-- Error message of the queue-full path (orchestrator.rs line 167). -/
def queueFullMsg : String := "Task queue full - too many concurrent tasks"

/-- Error message of the unknown-agent path (orchestrator.rs line 178). -/
def unknownAgentMsg (name : String) : String :=
  "Unknown agent " ++ sq ++ name ++ sq

/-- Error message of the timeout path (orchestrator.rs line 200). -/
def timeoutMsg : String := "Agent execution timed out"

/-- Model of `Orchestrator::dispatch` (orchestrator.rs, lines 157-209),
as the ordered list of messages sent on the task's reply channel.

* `permitFree` — whether `task_semaphore.try_acquire()` succeeds;
* `registry`   — the `agents` map at the time of the lookup;
* `timedOut`   — whether the 30-second `tokio::time::timeout` fires
  before the handler future completes (the race's outcome is external
  nondeterminism, so it is an input of the model).

A successful handler output `out : String` is forwarded as
`Ok(Value::String(out))`; a handler error is forwarded as the error; a
timeout is forwarded as the timeout error. -/
def dispatch (permitFree : Bool) (registry : List (String × AgentM))
    (name : String) (input : Json) (timedOut : Bool) : List Reply :=
  if ¬ permitFree then
    [Reply.err queueFullMsg]
  else
    match alookup name registry with
    | none => [Reply.err (unknownAgentMsg name)]
    | some agent =>
      if timedOut then [Reply.err timeoutMsg]
      else
        match agent.handle input with
        | .ok out => [Reply.ok (Json.str out)]
        | .error e => [Reply.err e]

/-- The specification's description of the one response a dispatched task
receives (spec: queue-full error when no permit is free, unknown-agent
error when the name is not registered, otherwise exactly one of success,
handler failure, or timeout).  Stated from the spec's words, to be
compared with `dispatch`. -/
def specResponse (permitFree : Bool) (registry : List (String × AgentM))
    (name : String) (input : Json) (timedOut : Bool) : Reply :=
  if ¬ permitFree then Reply.err queueFullMsg
  else match alookup name registry with
    | none => Reply.err (unknownAgentMsg name)
    | some agent =>
      if timedOut then Reply.err timeoutMsg
      else match agent.handle input with
        | .ok out => Reply.ok (Json.str out)
        | .error e => Reply.err e

/-! ## Cosine similarity (src/memory/mod.rs, `cosine`) -/

/-- `f32` is idealised as `ℝ` for the cosine claims; the structure of the
computation follows src/memory/mod.rs lines 312-326 exactly. -/
noncomputable def dotP (a b : List ℝ) : ℝ :=
  (List.zipWith (fun x y => x * y) a b).sum

/-- `a.iter().map(|x| x * x).sum::<f32>().sqrt()`. -/
noncomputable def normV (a : List ℝ) : ℝ :=
  Real.sqrt ((a.map (fun x => x * x)).sum)

open Classical in
/-- Model of `cosine` (src/memory/mod.rs, lines 312-326): zero on length
mismatch or empty first operand, zero when either norm is zero, else the
normalised dot product. -/
noncomputable def cosine (a b : List ℝ) : ℝ :=
  if a.length ≠ b.length ∨ a = [] then 0
  else if normV a = 0 ∨ normV b = 0 then 0
  else dotP a b / (normV a * normV b)

/-! ## The embedding memory engine (src/memory/mod.rs, `Memory::add_memory`)

A fragment is modelled as its content together with its embedding vector
(`f32` idealised as `ℚ`; the fragment's timestamp, source, tags and
metadata play no role in `add_memory`'s control flow).  The blake3 hash
and the embedding agent are passed in as explicit functions; the embedding
agent parameter models the agent call together with the JSON parse of its
output.  The dimension field is carried but — as in the source — a
dimension mismatch only logs a warning. -/

structure MemState where
  fragments : List (String × List ℚ)
  cache : List (String × List ℚ)
deriving DecidableEq

/-- The memory engine's initial state: no fragments, empty cache. -/
def emptyMem : MemState := ⟨[], []⟩

/-- `cache_key` (src/memory/mod.rs, lines 305-309):
`format!("embedding:\x7b\x7d", blake3_hex(content))`. -/
def cacheKeyM (blake3hex : String → String) (content : String) : String :=
  "embedding:" ++ blake3hex content

/-- Outcome of one `add_memory` call: success with the new state, an
error (`Err` in the source), or a panic.  The panic case is
`fragments.remove(0)` on an empty vector, reachable when
`max_fragments = 0`. -/
inductive AddOutcome : Type where
  | ok (st : MemState)
  | err (msg : String)
  | panic
deriving DecidableEq

/-- The fragment-list update of `add_memory` (src/memory/mod.rs, lines
139-148): evict index 0 when at capacity, then append. -/
def pushFragment (maxFragments : Nat) (st : MemState) (content : String)
    (vec : List ℚ) : AddOutcome :=
  if st.fragments.length ≥ maxFragments then
    match st.fragments with
    | [] => .panic
    | _ :: rest => .ok { st with fragments := rest ++ [(content, vec)] }
  else .ok { st with fragments := st.fragments ++ [(content, vec)] }

/-- Model of `Memory::add_memory` (src/memory/mod.rs, lines 102-150):
reject blank content; use the cached embedding when present, otherwise
call the embedding agent (parsing its JSON output — both modelled by
`embedAgent`), reject empty vectors, store the vector in the cache; then
evict-and-append on the fragment list.  `content.trim().is_empty()` is
rendered as "every character is whitespace". -/
def addMemory (blake3hex : String → String)
    (embedAgent : String → Except String (List ℚ))
    (embeddingDim : Nat) (maxFragments : Nat)
    (st : MemState) (content : String) : AddOutcome :=
  if content.toList.all Char.isWhitespace then .err "Cannot add empty content to memory"
  else
    match alookup (cacheKeyM blake3hex content) st.cache with
    | some vec => pushFragment maxFragments st content vec
    | none =>
      match embedAgent content with
      | .error e => .err e
      | .ok vec =>
        if vec = [] then .err "Embedding agent returned empty vector"
        else
          -- `vec.len() != embedding_dim` only logs a warning in the source
          pushFragment maxFragments
            { st with cache := ainsert (cacheKeyM blake3hex content) vec st.cache }
            content vec

/-- A sequence of `add_memory` calls, `none` as soon as one call does not
return `Ok` (so `some` means every insert in the sequence succeeded). -/
def addAll (blake3hex : String → String)
    (embedAgent : String → Except String (List ℚ))
    (embeddingDim : Nat) (maxFragments : Nat) :
    MemState → List String → Option MemState
  | st, [] => some st
  | st, c :: rest =>
    match addMemory blake3hex embedAgent embeddingDim maxFragments st c with
    | .ok st₂ => addAll blake3hex embedAgent embeddingDim maxFragments st₂ rest
    | _ => none

/-! ## The plugin loader (src/plugin.rs, `Plugin::load`) -/

/-- A filesystem path, split as directory and file name (`file_name`);
`Plugin::load` and `quarantine_plugin` only use the file name, the parent
directory, and the joined quarantine path. -/
structure FPath where
  dir : String
  base : String
deriving DecidableEq

/-- Rust's `Path::extension` on a file name: the portion after the final
dot, unless there is no dot or the only dot is the leading character of a
hidden file. -/
def rustExtension (base : String) : Option String :=
  match base.toList with
  | [] => none
  | _ :: rest =>
    if rest.any (fun c => c = '.')
    then some (String.mk (rest.reverse.takeWhile (fun c => c ≠ '.')).reverse)
    else none

/-- `PluginSecurityConfig` (src/plugin.rs, lines 20-30); the hash sets
are modelled as lists used through membership. -/
structure PluginSecurityConfig where
  allowed_hashes : List String
  require_signatures : Bool
  max_plugin_size : Nat
  allowed_extensions : List String
deriving DecidableEq

/-- The errors `Plugin::load` can return, in source order. -/
inductive LoadError : Type where
  | noExtension
  | extensionNotAllowed (ext : String)
  | metadataFailed
  | fileTooLarge (size maxSize : Nat)
  | allowlistEmpty
  | notAllowlisted
  | libraryLoadFailed
  | missingCreateAgent
deriving DecidableEq

/-- A successful load: the plugin record's hash and path (the library
handle and factory symbol carry no further observable data here). -/
structure PluginRecord where
  hash : String
  path : FPath
deriving DecidableEq

/-- The observable outcome of `Plugin::load`: its result, the filesystem
after the call, and the list of paths that were passed to
`libloading::Library::new` (i.e. dynamically mapped). -/
structure LoadOutcome where
  result : Except LoadError PluginRecord
  fs : List (FPath × List Nat)
  mapped : List FPath

/-- `true` iff the load outcome is a success. -/
def loadOk (o : LoadOutcome) : Bool :=
  match o.result with
  | .ok _ => true
  | .error _ => false

/-- The quarantine destination of `Plugin::quarantine_plugin`
(src/plugin.rs, lines 187-216): `<dir>/quarantine/<unix_ts>_<basename>`. -/
def quarantinePath (ts : Nat) (p : FPath) : FPath :=
  { dir := p.dir ++ "/quarantine", base := toString ts ++ "_" ++ p.base }

/-- Model of `Plugin::load` (src/plugin.rs, lines 78-146).  The
filesystem is a path-to-bytes map; `sha256hex` computes the hex digest of
a byte stream; `libraryLoads` and `hasCreateAgent` model whether
`Library::new` succeeds and whether the `create_agent` symbol resolves;
`ts` is the Unix timestamp used for quarantine names.  Steps, in source
order: extension check, metadata/size check, read and hash, allowlist
gate (with quarantine on mismatch), dynamic load, symbol resolution. -/
def loadPlugin (sha256hex : List Nat → String)
    (libraryLoads : List Nat → Bool) (hasCreateAgent : List Nat → Bool)
    (ts : Nat) (cfg : PluginSecurityConfig)
    (fs : List (FPath × List Nat)) (p : FPath) : LoadOutcome :=
  match rustExtension p.base with
  | none => ⟨.error .noExtension, fs, []⟩
  | some e =>
    let ext := "." ++ e
    if ext ∉ cfg.allowed_extensions then ⟨.error (.extensionNotAllowed ext), fs, []⟩
    else
      match alookup p fs with
      | none => ⟨.error .metadataFailed, fs, []⟩
      | some bytes =>
        if bytes.length > cfg.max_plugin_size then
          ⟨.error (.fileTooLarge bytes.length cfg.max_plugin_size), fs, []⟩
        else
          let hash := sha256hex bytes
          let mapPhase : LoadOutcome :=
            if ¬ libraryLoads bytes then ⟨.error .libraryLoadFailed, fs, [p]⟩
            else if ¬ hasCreateAgent bytes then ⟨.error .missingCreateAgent, fs, [p]⟩
            else ⟨.ok ⟨hash, p⟩, fs, [p]⟩
          if cfg.require_signatures then
            if cfg.allowed_hashes = [] then ⟨.error .allowlistEmpty, fs, []⟩
            else if hash ∉ cfg.allowed_hashes then
              ⟨.error .notAllowlisted, ainsert (quarantinePath ts p) bytes (aerase p fs), []⟩
            else mapPhase
          else mapPhase

/-! ## Settings validation (src/settings.rs, `Settings::validate`, and
src/server.rs, `validate_jwt_secret_startup`) -/

/-- The fields of the configuration tree that `Settings::validate` and
`validate_jwt_secret_startup` read.  `plugins.directory` and the LLM
model path are only probed for existence with a warning, so they are not
part of the model. -/
structure ServerSettings where
  port : Nat
  max_connections : Nat
deriving DecidableEq

structure SecuritySettings where
  enable_authentication : Bool
  jwt_secret : Option String
deriving DecidableEq

structure MemorySettings where
  provider : String
  url : Option String
deriving DecidableEq

structure LlmSettings where
  provider : String
  default_model : String
  models : List (String × String)
deriving DecidableEq

structure SettingsM where
  server : ServerSettings
  security : SecuritySettings
  memory : MemorySettings
  llm : LlmSettings
deriving DecidableEq

/-- Model of `Settings::validate` (src/settings.rs, lines 376-411), with
the source's error messages; the plugin-directory and model-path checks
only log warnings and never fail. -/
def SettingsM.validate (s : SettingsM) : Except String Unit :=
  if s.server.port = 0 then .error "Server port cannot be 0"
  else if s.server.max_connections = 0 then .error "Max connections cannot be 0"
  else if s.memory.provider = "redis" ∧ s.memory.url = none then
    .error "Redis provider requires AEP_MEMORY_URL environment variable"
  else if s.security.enable_authentication = true ∧ s.security.jwt_secret = none then
    .error "Authentication enabled but no JWT secret provided"
  else if s.llm.provider = "llama" ∧ alookup s.llm.default_model s.llm.models = none then
    .error "Default LLM model not found"
  else .ok ()

/-- The hard-coded weak-secret list of `validate_jwt_secret_startup`
(src/server.rs, lines 594-600). -/
def weakSecrets : List String :=
  ["default_insecure_secret_change_in_production", "secret", "jwt_secret",
   "change_me", "insecure"]

/-- Model of `validate_jwt_secret_startup` (src/server.rs, lines
582-618).  `envSecret` is the value of `AEP_JWT_SECRET` seen by
`get_jwt_secret_for_server`; Rust's `str::len` is the UTF-8 byte count,
hence `String.utf8ByteSize`; the `HashSet<char>` entropy check is the
number of distinct characters. -/
def validateJwtSecretStartup (envSecret : Option String) (s : SettingsM) :
    Except String Unit :=
  if s.security.enable_authentication then
    match s.security.jwt_secret.orElse (fun _ => envSecret) with
    | none =>
      .error "JWT secret must be provided via AEP_JWT_SECRET environment variable or config file when authentication is enabled"
    | some secret =>
      if secret.utf8ByteSize < 32 then
        .error "JWT secret must be at least 32 characters long"
      else if secret ∈ weakSecrets then
        .error "JWT secret is using a known weak value. Please set AEP_JWT_SECRET environment variable with a strong, random secret."
      else if secret.toList.dedup.length < 4 then
        .error "JWT secret lacks sufficient entropy. Use a random, complex secret."
      else .ok ()
  else .ok ()

/-- The configuration validation actually performed at startup:
`Settings::load` runs `Settings::validate` (settings.rs line 328), and
`server::run` then runs `validate_jwt_secret_startup` (server.rs line
459). -/
def startupValidation (envSecret : Option String) (s : SettingsM) :
    Except String Unit :=
  match s.validate with
  | .error e => .error e
  | .ok _ => validateJwtSecretStartup envSecret s

/-! ## Authentication (src/auth.rs, `AuthManager::authenticate`) -/

/-- A user record (src/auth.rs, `User`). -/
structure UserM where
  id : String
  username : String
  password_hash : String
  roles : List String
  active : Bool
deriving DecidableEq

/-- The `AuthManager` state that `authenticate` reads and writes: the
user table (database and cache unified, since the cache is filled from
and consistent with the table), the per-username login-attempt map, and
the two lockout parameters.  Instants are modelled as naturals. -/
structure AuthState where
  users : List (String × UserM)
  login_attempts : List (String × (Nat × Option Nat))
  max_login_attempts : Nat
  lockout_duration : Nat
deriving DecidableEq

/-- Outcome of `authenticate`: a JWT for the user's id, or an `anyhow`
error carrying the source's message. -/
inductive AuthResult : Type where
  | token (userId : String)
  | failure (msg : String)
deriving DecidableEq

/-- Model of `AuthManager::authenticate` (src/auth.rs, lines 124-155).
`verify` models `AuthManager::verify_password` (Argon2);
`now` is the current instant.  Source order: user lookup, active check,
lockout check, password verification with counter increment and
conditional lockout, counter reset and token issuance on success. -/
def authenticate (verify : String → String → Bool) (now : Nat)
    (st : AuthState) (username password : String) : AuthResult × AuthState :=
  match alookup username st.users with
  | none => (.failure "User not found", st)
  | some user =>
    if user.active = false then (.failure "User account is disabled", st)
    else
      let lockedOut : Bool :=
        match alookup username st.login_attempts with
        | some (_, some lockUntil) => decide (now < lockUntil)
        | _ => false
      if lockedOut then (.failure "Account temporarily locked", st)
      else if verify password user.password_hash = false then
        let prev := (alookup username st.login_attempts).getD (0, none)
        let failures := prev.1 + 1
        let lockUntil :=
          if st.max_login_attempts ≤ failures then some (now + st.lockout_duration)
          else prev.2
        (.failure "Invalid credentials",
         { st with login_attempts := ainsert username (failures, lockUntil) st.login_attempts })
      else
        (.token user.id, { st with login_attempts := aerase username st.login_attempts })

/-- A sequence of `authenticate` calls for one username: each element is
the call's instant and password; only the resulting state is kept. -/
def authRun (verify : String → String → Bool) (username : String) :
    AuthState → List (Nat × String) → AuthState
  | st, [] => st
  | st, (t, pw) :: rest =>
    authRun verify username (authenticate verify t st username pw).2 rest

/-! ## Concrete instances used by witnesses and counterexamples -/

/-- Identity used where a hash function parameter is irrelevant. -/
def idHash (s : String) : String := s

/-- Embedding agent that returns the vector `[1]` for every content. -/
def constEmbed (_ : String) : Except String (List ℚ) := .ok [1]

/-- The memory state reached by three inserts "a", "b", "c" with
`max_fragments = 2` (the witness instance for the eviction claim). -/
def memWitnessState : MemState :=
  ⟨[("b", [1]), ("c", [1])],
   [("embedding:c", [1]), ("embedding:b", [1]), ("embedding:a", [1])]⟩

/-- A plugin file path used in concrete load scenarios. -/
def evilPath : FPath := ⟨"/plugins", "evil.so"⟩

/-- A one-byte filesystem holding only `evilPath`. -/
def fsOne : List (FPath × List Nat) := [(evilPath, [0])]

/-- Constant digest function for concrete load scenarios. -/
def constSha (_ : List Nat) : String := "h"

/-- Every byte stream maps and resolves successfully. -/
def alwaysTrue (_ : List Nat) : Bool := true

/-- Security config with signature verification disabled. -/
def cfgNoSig : PluginSecurityConfig :=
  ⟨[], false, 10, [".so"]⟩

/-- Security config requiring signatures with an empty allowlist. -/
def cfgEmptyAllow : PluginSecurityConfig :=
  ⟨[], true, 10, [".so"]⟩

/-- Security config requiring signatures whose allowlist holds "h". -/
def cfgAllowH : PluginSecurityConfig :=
  ⟨["h"], true, 10, [".so"]⟩

/-- Security config requiring signatures whose allowlist holds only "g"
(so the digest "h" is not allowlisted). -/
def cfgAllowG : PluginSecurityConfig :=
  ⟨["g"], true, 10, [".so"]⟩

/-- A settings value that enables authentication with the 3-byte secret
"abc" and is otherwise well-formed. -/
def settingsShortSecret : SettingsM :=
  ⟨⟨8080, 100⟩, ⟨true, some "abc"⟩, ⟨"local", none⟩, ⟨"none", "default", []⟩⟩

/-- Password verification for concrete instances: the stored hash is the
password itself. -/
def verifyEq (password hash : String) : Bool := password = hash

/-- An inactive user record for concrete instances. -/
def aliceInactive : UserM := ⟨"alice", "alice", "pw", ["user"], false⟩

/-- An active user record for concrete instances. -/
def aliceActive : UserM := ⟨"alice", "alice", "pw", ["user"], true⟩

/-- A state with one inactive user. -/
def stInactive : AuthState := ⟨[("alice", aliceInactive)], [], 3, 60⟩

/-- A state with one inactive user whose lockout deadline is 100. -/
def stInactiveLocked : AuthState :=
  ⟨[("alice", aliceInactive)], [("alice", (3, some 100))], 3, 60⟩

/-- A state with one active user whose lockout deadline is 100. -/
def stActiveLocked : AuthState :=
  ⟨[("alice", aliceActive)], [("alice", (3, some 100))], 3, 60⟩

/-- A state with one active user, no recorded attempts,
`max_login_attempts = 1`, `lockout_duration = 10`. -/
def stFresh : AuthState := ⟨[("alice", aliceActive)], [], 1, 10⟩

/-- A state with one active user and one recorded failure. -/
def stOneFailure : AuthState :=
  ⟨[("alice", aliceActive)], [("alice", (1, none))], 3, 60⟩

/-! ## Theorems -/

/-- **C1.** For every task passed to `Orchestrator::dispatch`, exactly one
response is sent on that task's reply channel, and it is the one the
specification prescribes: the queue-full error when no concurrency permit
is free, the unknown-agent error when the name is not registered, and
otherwise exactly one of success, handler failure, or timeout. -/
theorem dispatch_sends_exactly_one_response
    (permitFree : Bool) (registry : List (String × AgentM))
    (name : String) (input : Json) (timedOut : Bool) :
    dispatch permitFree registry name input timedOut =
      [specResponse permitFree registry name input timedOut] := by
  unfold dispatch specResponse
  cases permitFree <;> simp
  cases alookup name registry with
  | none => rfl
  | some agent =>
    cases timedOut <;> simp
    cases agent.handle input <;> rfl

/-- **C9 (amended).** With the built-in echo handler registered under
"echo", dispatching the task ("echo", "hello") delivers the reply
`Ok("Echo: \"hello\"")` — the string "Echo: " followed by the JSON
serialisation of the submitted value — rather than the submitted value
itself. -/
theorem echo_roundtrip_reply :
    dispatch true [("echo", echoAgent)] "echo" (Json.str "hello") false =
      [Reply.ok (Json.str "Echo: \"hello\"")] := by
  rfl

/-- **C9 counterexample.** The reply to ("echo", "hello") is not
`Ok("hello")`: the built-in echo agent prefixes "Echo: " and serialises
the JSON value, so the successful reply value differs from the value
submitted. -/
theorem echo_roundtrip_claim_counterexample :
    dispatch true [("echo", echoAgent)] "echo" (Json.str "hello") false ≠
      [Reply.ok (Json.str "hello")] := by
  intro h
  have e : dispatch true [("echo", echoAgent)] "echo" (Json.str "hello") false =
      [Reply.ok (Json.str "Echo: \"hello\"")] := rfl
  rw [e] at h
  simp only [List.cons.injEq, Reply.ok.injEq, Json.str.injEq, and_true] at h
  exact absurd h (by decide)

/-- Sum of squares of a list of reals is nonnegative. -/
theorem sumSquares_nonneg (a : List ℝ) : 0 ≤ (a.map (fun x => x * x)).sum := by
  apply List.sum_nonneg
  intro x hx
  rcases List.mem_map.mp hx with ⟨y, _, rfl⟩
  exact mul_self_nonneg y

/-- The dot product of a vector with itself is its sum of squares. -/
theorem dotP_self (a : List ℝ) : dotP a a = (a.map (fun x => x * x)).sum := by
  unfold dotP
  induction a with
  | nil => simp
  | cons x rest ih => simp [List.zipWith, ih]

/-- The dot product is symmetric. -/
theorem dotP_comm (a b : List ℝ) : dotP a b = dotP b a := by
  unfold dotP
  induction a generalizing b with
  | nil => cases b <;> simp
  | cons x rest ih =>
    cases b with
    | nil => simp
    | cons y rest₂ => simp [List.zipWith, ih rest₂, mul_comm]

/-- **C8 (amended).** The cosine similarity of src/memory/mod.rs (with
`f32` idealised as `ℝ`) satisfies: `cos(a, a) = 1` for every vector `a`
of nonzero norm (not merely every non-empty `a`); `cos(a, b) = 0`
whenever either operand has zero norm; `cos` is symmetric; and
different-length inputs yield 0. -/
theorem cosine_properties :
    (∀ a : List ℝ, normV a ≠ 0 → cosine a a = 1) ∧
    (∀ a b : List ℝ, normV a = 0 ∨ normV b = 0 → cosine a b = 0) ∧
    (∀ a b : List ℝ, cosine a b = cosine b a) ∧
    (∀ a b : List ℝ, a.length ≠ b.length → cosine a b = 0) := by
  refine ⟨?_, ?_, ?_, ?_⟩
  · intro a ha
    have hne : a ≠ [] := by
      rintro rfl
      exact ha (by simp [normV])
    have hS : (a.map (fun x => x * x)).sum ≠ 0 := by
      intro h0
      exact ha (by simp [normV, h0])
    unfold cosine
    rw [if_neg (by simp [hne]), if_neg (by simp [ha])]
    rw [dotP_self]
    unfold normV
    rw [Real.mul_self_sqrt (sumSquares_nonneg a)]
    exact div_self hS
  · intro a b h
    unfold cosine
    by_cases hc : a.length ≠ b.length ∨ a = []
    · rw [if_pos hc]
    · rw [if_neg hc, if_pos h]
  · intro a b
    unfold cosine
    by_cases hlen : a.length = b.length
    · by_cases hnil : a = []
      · have hbnil : b = [] := by
          subst hnil
          exact (List.length_eq_zero.mp hlen.symm)
        subst hnil hbnil
        simp
      · have hbnil : b ≠ [] := by
          intro hb
          subst hb
          exact hnil (List.length_eq_zero.mp hlen)
        have hA : ¬(a.length ≠ b.length ∨ a = []) := by simp [hlen, hnil]
        have hB : ¬(b.length ≠ a.length ∨ b = []) := by simp [hlen, hbnil]
        rw [if_neg hA, if_neg hB]
        by_cases hn : normV a = 0 ∨ normV b = 0
        · rw [if_pos hn, if_pos (Or.symm hn)]
        · rw [if_neg hn, if_neg (fun h => hn (Or.symm h))]
          rw [dotP_comm, mul_comm (normV a) (normV b)]
    · rw [if_pos (Or.inl hlen), if_pos (Or.inl (Ne.symm hlen))]
  · intro a b h
    unfold cosine
    rw [if_pos (Or.inl h)]

/-- **C8 witness.** Concrete instances of `cosine_properties`: the
one-dimensional unit vector has self-similarity 1, and vectors of lengths
2 and 1 have similarity 0. -/
theorem cosine_properties_witness :
    cosine [(1 : ℝ)] [(1 : ℝ)] = 1 ∧ cosine [(1 : ℝ), 2] [(3 : ℝ)] = 0 := by
  constructor
  · exact cosine_properties.1 [(1 : ℝ)] (by simp [normV])
  · exact cosine_properties.2.2.2 [(1 : ℝ), 2] [(3 : ℝ)] (by simp)

/-- **C8 counterexample.** `[0]` is a non-empty vector, yet
`cosine [0] [0] = 0 ≠ 1`: the claim `cos(a, a) = 1` fails for non-empty
vectors of zero norm. -/
theorem cosine_self_counterexample :
    ([(0 : ℝ)] ≠ ([] : List ℝ)) ∧ cosine [(0 : ℝ)] [(0 : ℝ)] ≠ 1 := by
  constructor
  · simp
  · unfold cosine
    rw [if_neg (by simp), if_pos (by simp [normV])]
    norm_num

/-! ### Association-list lemmas -/

/-- Erasing a key removes every binding for it. -/
theorem alookup_aerase_self {α β : Type} [DecidableEq α] (k : α) (l : List (α × β)) :
    alookup k (aerase k l) = none := by
  induction l with
  | nil => rfl
  | cons kv rest ih =>
    by_cases h : kv.1 = k
    · simpa [aerase, h] using ih
    · simpa [aerase, alookup, h] using ih

/-- Erasing one key leaves lookups of another unchanged. -/
theorem alookup_aerase_ne {α β : Type} [DecidableEq α] {k k₂ : α} (l : List (α × β))
    (h : k₂ ≠ k) : alookup k (aerase k₂ l) = alookup k l := by
  induction l with
  | nil => rfl
  | cons kv rest ih =>
    obtain ⟨k₃, v⟩ := kv
    show alookup k (if k₃ = k₂ then aerase k₂ rest else (k₃, v) :: aerase k₂ rest) =
      alookup k ((k₃, v) :: rest)
    by_cases hk : k₃ = k₂
    · have hkk : k₃ ≠ k := by rw [hk]; exact h
      rw [if_pos hk, ih]
      show alookup k rest = if k₃ = k then some v else alookup k rest
      rw [if_neg hkk]
    · rw [if_neg hk]
      show (if k₃ = k then some v else alookup k (aerase k₂ rest)) =
        if k₃ = k then some v else alookup k rest
      by_cases hk2 : k₃ = k
      · rw [if_pos hk2, if_pos hk2]
      · rw [if_neg hk2, if_neg hk2, ih]

/-- Looking up the freshly inserted key yields the new value. -/
theorem alookup_ainsert_self {α β : Type} [DecidableEq α] (k : α) (v : β)
    (l : List (α × β)) : alookup k (ainsert k v l) = some v := by
  simp [ainsert, alookup]

/-- Inserting at one key leaves lookups of another unchanged. -/
theorem alookup_ainsert_ne {α β : Type} [DecidableEq α] {k k₂ : α} (v : β)
    (l : List (α × β)) (h : k₂ ≠ k) :
    alookup k (ainsert k₂ v l) = alookup k l := by
  simp [ainsert, alookup, h]
  exact alookup_aerase_ne l h

/-! ### C7: fragment cap and FIFO eviction -/

/-- Case analysis of a successful `pushFragment`: either below capacity
and appended, or at capacity with the head evicted and appended. -/
theorem pushFragment_ok (m : Nat) (st : MemState) (c : String) (v : List ℚ)
    (st₂ : MemState) (h : pushFragment m st c v = .ok st₂) :
    (st.fragments.length < m ∧ st₂.fragments = st.fragments ++ [(c, v)]) ∨
    (m ≤ st.fragments.length ∧ st.fragments ≠ [] ∧
      st₂.fragments = st.fragments.tail ++ [(c, v)]) := by
  unfold pushFragment at h
  by_cases hlen : st.fragments.length ≥ m
  · rw [if_pos hlen] at h
    obtain ⟨f, fr, hfr⟩ : ∃ f fr, st.fragments = f :: fr := by
      cases hx : st.fragments with
      | nil => rw [hx] at h; simp at h
      | cons a b => exact ⟨a, b, rfl⟩
    rw [hfr] at h
    refine Or.inr ⟨hlen, by rw [hfr]; simp, ?_⟩
    cases h
    simp [hfr]
  · rw [if_neg hlen] at h
    cases h
    exact Or.inl ⟨by omega, by simp⟩

/-- Case analysis of a successful `addMemory` on the fragment list. -/
theorem addMemory_ok_fragments (hash : String → String)
    (embed : String → Except String (List ℚ)) (dim m : Nat)
    (st : MemState) (c : String) (st₂ : MemState)
    (h : addMemory hash embed dim m st c = .ok st₂) :
    ∃ v, (st.fragments.length < m ∧ st₂.fragments = st.fragments ++ [(c, v)]) ∨
      (m ≤ st.fragments.length ∧ st.fragments ≠ [] ∧
        st₂.fragments = st.fragments.tail ++ [(c, v)]) := by
  unfold addMemory at h
  by_cases htrim : c.toList.all Char.isWhitespace = true
  · rw [if_pos htrim] at h; simp at h
  · rw [if_neg htrim] at h
    cases hcache : alookup (cacheKeyM hash c) st.cache with
    | some vec =>
      rw [hcache] at h
      dsimp only at h
      exact ⟨vec, pushFragment_ok m st c vec st₂ h⟩
    | none =>
      rw [hcache] at h
      dsimp only at h
      cases hemb : embed c with
      | error e => rw [hemb] at h; simp at h
      | ok vec =>
        rw [hemb] at h
        dsimp only at h
        by_cases hnil : vec = []
        · rw [if_pos hnil] at h; simp at h
        · rw [if_neg hnil] at h
          have hp := pushFragment_ok m
            { st with cache := ainsert (cacheKeyM hash c) vec st.cache } c vec st₂ h
          exact ⟨vec, by simpa using hp⟩

/-- After a fully successful insert sequence, the surviving contents are
a suffix of the initial contents followed by the inserted contents: the
window of the last `max_fragments` entries. -/
theorem addAll_fragments_drop (hash : String → String)
    (embed : String → Except String (List ℚ)) (dim m : Nat) :
    ∀ (cs : List String) (st st₂ : MemState), st.fragments.length ≤ m →
    addAll hash embed dim m st cs = some st₂ →
    st₂.fragments.map Prod.fst =
      ((st.fragments.map Prod.fst) ++ cs).drop
        (st.fragments.length + cs.length - m) := by
  intro cs
  induction cs with
  | nil =>
    intro st st₂ hle h
    unfold addAll at h
    cases h
    have h0 : st.fragments.length + List.length ([] : List String) - m = 0 := by
      simp; omega
    rw [h0]
    simp
  | cons c rest ih =>
    intro st st₂ hle h
    unfold addAll at h
    cases hstep : addMemory hash embed dim m st c with
    | err e => rw [hstep] at h; simp at h
    | panic => rw [hstep] at h; simp at h
    | ok s₁ =>
      rw [hstep] at h
      dsimp only at h
      obtain ⟨v, hcase⟩ := addMemory_ok_fragments hash embed dim m st c s₁ hstep
      rcases hcase with ⟨hlt, hfr⟩ | ⟨hge, hne, hfr⟩
      · have hlen₁ : s₁.fragments.length = st.fragments.length + 1 := by
          rw [hfr]; simp
        have hres := ih s₁ st₂ (by omega) h
        rw [hlen₁] at hres
        rw [hfr] at hres
        simp only [List.map_append, List.map_cons, List.map_nil] at hres
        rw [List.append_assoc, List.singleton_append] at hres
        rw [hres]
        congr 1
        simp only [List.length_append, List.length_cons, List.length_nil]
        omega
      · have hm : st.fragments.length = m := by omega
        obtain ⟨f, fr, hfr0⟩ : ∃ f fr, st.fragments = f :: fr := by
          cases hx : st.fragments with
          | nil => exact absurd hx hne
          | cons a b => exact ⟨a, b, rfl⟩
        have hfrlen : fr.length + 1 = m := by
          rw [hfr0] at hm
          simpa using hm
        have hlen₁ : s₁.fragments.length = m := by
          rw [hfr, hfr0]
          simp
          omega
        have hres := ih s₁ st₂ (by omega) h
        rw [hlen₁] at hres
        rw [hfr, hfr0] at hres
        simp only [List.tail_cons, List.map_append, List.map_cons, List.map_nil] at hres
        rw [List.append_assoc, List.singleton_append] at hres
        have e1 : m + rest.length - m = rest.length := by omega
        rw [e1] at hres
        have e2 : st.fragments.length + (c :: rest).length - m = rest.length + 1 := by
          rw [hm]
          simp only [List.length_cons]
          omega
        rw [e2, hfr0]
        simp only [List.map_cons, List.cons_append, List.drop_succ_cons]
        exact hres

/-- **C7.** After any fully successful sequence of `add_memory` calls
starting from the empty memory, the fragment count never exceeds
`max_fragments`; and after `max_fragments + k` successful inserts of
distinct contents, exactly `max_fragments` fragments remain, the evicted
contents being precisely the first `k` inserted. -/
theorem memory_cap_and_fifo_eviction :
    (∀ (hash : String → String) (embed : String → Except String (List ℚ))
       (dim m : Nat) (cs : List String) (st₂ : MemState),
       addAll hash embed dim m emptyMem cs = some st₂ →
       st₂.fragments.length ≤ m) ∧
    (∀ (hash : String → String) (embed : String → Except String (List ℚ))
       (dim m k : Nat) (cs : List String) (st₂ : MemState),
       cs.Nodup → cs.length = m + k →
       addAll hash embed dim m emptyMem cs = some st₂ →
       st₂.fragments.map Prod.fst = cs.drop k ∧ st₂.fragments.length = m) := by
  constructor
  · intro hash embed dim m cs st₂ h
    have := addAll_fragments_drop hash embed dim m cs emptyMem st₂ (by simp [emptyMem]) h
    simp [emptyMem] at this
    have hlen := congrArg List.length this
    simp at hlen
    omega
  · intro hash embed dim m k cs st₂ _ hcs h
    have := addAll_fragments_drop hash embed dim m cs emptyMem st₂ (by simp [emptyMem]) h
    simp [emptyMem] at this
    have hk : cs.length - m = k := by omega
    rw [hk] at this
    refine ⟨this, ?_⟩
    have hlen := congrArg List.length this
    simp at hlen
    omega

/-- **C7 witness.** With `max_fragments = 2`, inserting the distinct
contents "a", "b", "c" succeeds and leaves exactly the fragments "b", "c":
the first insert was evicted. -/
theorem memory_cap_and_fifo_eviction_witness :
    memWitnessState.fragments.map Prod.fst = ["a", "b", "c"].drop 1 ∧
    memWitnessState.fragments.length = 2 :=
  memory_cap_and_fifo_eviction.2 idHash constEmbed 384 2 1 ["a", "b", "c"]
    memWitnessState (by decide) rfl (by decide)

/-! ### C2, C3: plugin loading and quarantine -/

/-- The quarantine path is never the original path: its directory is
strictly longer. -/
theorem quarantinePath_ne_self (ts : Nat) (p : FPath) : quarantinePath ts p ≠ p := by
  intro h
  have hd : (quarantinePath ts p).dir = p.dir := congrArg FPath.dir h
  unfold quarantinePath at hd
  have hlen := congrArg String.length hd
  rw [String.length_append] at hlen
  have h11 : "/quarantine".length = 11 := by decide
  rw [h11] at hlen
  omega

/-- Evaluation of `Plugin::load` once the extension, metadata and size
checks have passed and signature verification is enabled: what remains is
the allowlist gate followed by the dynamic-load phase. -/
theorem loadPlugin_sig_eval (sha : List Nat → String) (ll hca : List Nat → Bool)
    (ts : Nat) (cfg : PluginSecurityConfig) (fs : List (FPath × List Nat))
    (p : FPath) (bytes : List Nat) (e : String)
    (hsig : cfg.require_signatures = true)
    (hext : rustExtension p.base = some e)
    (hmem : ("." ++ e) ∈ cfg.allowed_extensions)
    (hfs : alookup p fs = some bytes)
    (hsize : bytes.length ≤ cfg.max_plugin_size) :
    loadPlugin sha ll hca ts cfg fs p =
      (if cfg.allowed_hashes = [] then ⟨.error .allowlistEmpty, fs, []⟩
       else if sha bytes ∉ cfg.allowed_hashes then
         ⟨.error .notAllowlisted, ainsert (quarantinePath ts p) bytes (aerase p fs), []⟩
       else if ¬ ll bytes then ⟨.error .libraryLoadFailed, fs, [p]⟩
       else if ¬ hca bytes then ⟨.error .missingCreateAgent, fs, [p]⟩
       else ⟨.ok ⟨sha bytes, p⟩, fs, [p]⟩) := by
  unfold loadPlugin
  rw [hext]
  dsimp only
  rw [if_neg (not_not_intro hmem), hfs]
  dsimp only
  rw [if_neg (by omega), if_pos hsig]

/-- **C2 (amended).** For a plugin file that passes the extension, size,
dynamic-load and symbol checks, and a security configuration with
`require_signatures` enabled, the loader succeeds iff the SHA-256 digest
of the file's bytes is in the allowed-hashes set.  (When
`require_signatures` is disabled the digest is not consulted at all.) -/
theorem plugin_load_allowlist_iff
    (sha : List Nat → String) (ll hca : List Nat → Bool) (ts : Nat)
    (cfg : PluginSecurityConfig) (fs : List (FPath × List Nat)) (p : FPath)
    (bytes : List Nat) (e : String)
    (hsig : cfg.require_signatures = true)
    (hext : rustExtension p.base = some e)
    (hmem : ("." ++ e) ∈ cfg.allowed_extensions)
    (hfs : alookup p fs = some bytes)
    (hsize : bytes.length ≤ cfg.max_plugin_size)
    (hll : ll bytes = true) (hhca : hca bytes = true) :
    loadOk (loadPlugin sha ll hca ts cfg fs p) = true ↔
      sha bytes ∈ cfg.allowed_hashes := by
  rw [loadPlugin_sig_eval sha ll hca ts cfg fs p bytes e hsig hext hmem hfs hsize]
  by_cases hempty : cfg.allowed_hashes = []
  · rw [if_pos hempty]
    constructor
    · intro hok; simp [loadOk] at hok
    · intro hin; rw [hempty] at hin; simp at hin
  · rw [if_neg hempty]
    by_cases hmem2 : sha bytes ∈ cfg.allowed_hashes
    · rw [if_neg (not_not_intro hmem2), if_neg (by simp [hll]), if_neg (by simp [hhca])]
      simp [loadOk, hmem2]
    · rw [if_pos hmem2]
      simp [loadOk, hmem2]

/-- **C2 witness.** With digest "h", allowlist `["h"]` and signature
checking on, `evil.so` loads successfully. -/
theorem plugin_load_allowlist_iff_witness :
    loadOk (loadPlugin constSha alwaysTrue alwaysTrue 0 cfgAllowH fsOne evilPath) = true :=
  (plugin_load_allowlist_iff constSha alwaysTrue alwaysTrue 0 cfgAllowH fsOne
    evilPath [0] "so" rfl (by decide) (by decide) (by decide) (by decide)
    rfl rfl).mpr (by decide)

/-- **C2 counterexample.** With `require_signatures = false` the loader
succeeds although the digest is not in the (empty) allowed-hashes set, so
"load succeeds iff digest ∈ allowed_hashes" is false for such
configurations. -/
theorem plugin_load_allowlist_iff_counterexample :
    loadOk (loadPlugin constSha alwaysTrue alwaysTrue 0 cfgNoSig fsOne evilPath) = true ∧
    constSha [0] ∉ cfgNoSig.allowed_hashes := by
  exact ⟨by decide, by decide⟩

/-- **C3 (amended).** When `require_signatures` is enabled, the allowlist
is non-empty, the file passes the extension and size checks, and its
digest is not in the allowlist, `Plugin::load` fails with the
not-allowlisted error, the file is moved to
`<dir>/quarantine/<unix_ts>_<basename>` so the original path no longer
exists after return, and the library is never dynamically mapped.
(With an empty allowlist the call instead fails with the misconfiguration
error, without quarantining.) -/
theorem quarantine_on_unallowlisted_hash
    (sha : List Nat → String) (ll hca : List Nat → Bool) (ts : Nat)
    (cfg : PluginSecurityConfig) (fs : List (FPath × List Nat)) (p : FPath)
    (bytes : List Nat) (e : String)
    (hsig : cfg.require_signatures = true)
    (hnonempty : cfg.allowed_hashes ≠ [])
    (hext : rustExtension p.base = some e)
    (hmem : ("." ++ e) ∈ cfg.allowed_extensions)
    (hfs : alookup p fs = some bytes)
    (hsize : bytes.length ≤ cfg.max_plugin_size)
    (hnotin : sha bytes ∉ cfg.allowed_hashes) :
    (loadPlugin sha ll hca ts cfg fs p).result = .error .notAllowlisted ∧
    alookup p (loadPlugin sha ll hca ts cfg fs p).fs = none ∧
    alookup (quarantinePath ts p) (loadPlugin sha ll hca ts cfg fs p).fs = some bytes ∧
    (loadPlugin sha ll hca ts cfg fs p).mapped = [] := by
  rw [loadPlugin_sig_eval sha ll hca ts cfg fs p bytes e hsig hext hmem hfs hsize]
  rw [if_neg hnonempty, if_pos hnotin]
  refine ⟨rfl, ?_, ?_, rfl⟩
  · rw [alookup_ainsert_ne bytes (aerase p fs) (quarantinePath_ne_self ts p)]
    exact alookup_aerase_self p fs
  · exact alookup_ainsert_self (quarantinePath ts p) bytes (aerase p fs)

/-- **C3 witness.** With digest "h" and allowlist `["g"]`, loading
`/plugins/evil.so` at timestamp 7 returns the not-allowlisted error,
removes the original file, creates
`/plugins/quarantine/7_evil.so`, and maps no library. -/
theorem quarantine_on_unallowlisted_hash_witness :
    (loadPlugin constSha alwaysTrue alwaysTrue 7 cfgAllowG fsOne evilPath).result =
      .error .notAllowlisted ∧
    alookup evilPath (loadPlugin constSha alwaysTrue alwaysTrue 7 cfgAllowG fsOne evilPath).fs = none ∧
    alookup (quarantinePath 7 evilPath)
      (loadPlugin constSha alwaysTrue alwaysTrue 7 cfgAllowG fsOne evilPath).fs = some [0] ∧
    (loadPlugin constSha alwaysTrue alwaysTrue 7 cfgAllowG fsOne evilPath).mapped = [] :=
  quarantine_on_unallowlisted_hash constSha alwaysTrue alwaysTrue 7 cfgAllowG
    fsOne evilPath [0] "so" rfl (by decide) (by decide) (by decide) (by decide)
    (by decide) (by decide)

/-- **C3 counterexample.** With `require_signatures` enabled but an empty
allowlist, the digest is (vacuously) not in the allowlist, yet the load
fails with the misconfiguration error — not the not-allowlisted error —
and the file stays at its original path, unquarantined. -/
theorem quarantine_claim_counterexample :
    cfgEmptyAllow.require_signatures = true ∧
    constSha [0] ∉ cfgEmptyAllow.allowed_hashes ∧
    (loadPlugin constSha alwaysTrue alwaysTrue 0 cfgEmptyAllow fsOne evilPath).result =
      .error .allowlistEmpty ∧
    LoadError.allowlistEmpty ≠ LoadError.notAllowlisted ∧
    alookup evilPath
      (loadPlugin constSha alwaysTrue alwaysTrue 0 cfgEmptyAllow fsOne evilPath).fs = some [0] :=
  ⟨rfl, by decide, rfl, by decide, by decide⟩

/-! ### C4: JWT secret validation -/

/-- **C4 (amended).** `Settings::validate` itself rejects only the
absent-secret case; the length, distinct-character and weak-list checks
are performed at server startup by `validate_jwt_secret_startup`.  The
combined startup validation (`Settings::load`'s `validate` followed by
`validate_jwt_secret_startup`) rejects, as a fatal configuration error,
every configuration in which authentication is enabled and the configured
JWT secret is absent, shorter than 32 bytes, has fewer than 4 distinct
characters, or is in the hard-coded weak-secret list. -/
theorem startup_validation_rejects_weak_jwt
    (env : Option String) (s : SettingsM)
    (hauth : s.security.enable_authentication = true)
    (hbad : s.security.jwt_secret = none ∨
      ∃ sec, s.security.jwt_secret = some sec ∧
        (sec.utf8ByteSize < 32 ∨ sec.toList.dedup.length < 4 ∨ sec ∈ weakSecrets)) :
    startupValidation env s ≠ .ok () := by
  unfold startupValidation
  cases hval : s.validate with
  | error e => simp
  | ok u =>
    rcases hbad with hnone | ⟨sec, hsec, hweak⟩
    · exfalso
      unfold SettingsM.validate at hval
      split_ifs at hval with h₁ h₂ h₃ h₄ h₅
      · exact h₄ ⟨hauth, hnone⟩
    · unfold validateJwtSecretStartup
      rw [hauth, hsec]
      dsimp only
      rw [if_pos rfl]
      dsimp only [Option.orElse]
      by_cases h32 : sec.utf8ByteSize < 32
      · rw [if_pos h32]; simp
      · rw [if_neg h32]
        by_cases hwk : sec ∈ weakSecrets
        · rw [if_pos hwk]; simp
        · rw [if_neg hwk]
          have h4 : sec.toList.dedup.length < 4 := by
            rcases hweak with h | h | h
            · exact absurd h h32
            · exact h
            · exact absurd h hwk
          rw [if_pos h4]
          simp

/-- **C4 witness.** The startup validation rejects a configuration with
authentication enabled and the 3-byte secret "abc". -/
theorem startup_validation_rejects_weak_jwt_witness :
    startupValidation none settingsShortSecret ≠ .ok () :=
  startup_validation_rejects_weak_jwt none settingsShortSecret rfl
    (Or.inr ⟨"abc", rfl, Or.inl (by decide)⟩)

/-- **C4 counterexample.** `Settings::validate` alone accepts a
configuration with authentication enabled whose JWT secret is only 3
bytes long and has only 3 distinct characters: the strength checks are
not in `Settings::validate`. -/
theorem settings_validate_weak_secret_counterexample :
    settingsShortSecret.security.enable_authentication = true ∧
    settingsShortSecret.security.jwt_secret = some "abc" ∧
    "abc".utf8ByteSize < 32 ∧ "abc".toList.dedup.length < 4 ∧
    settingsShortSecret.validate = .ok () :=
  ⟨rfl, rfl, by decide, by decide, rfl⟩

/-! ### C5: absent vs inactive users -/

/-- **C5 (amended).** `authenticate` does distinguish an absent user from
an inactive one: a username with no record yields the error
"User not found" while an inactive record yields
"User account is disabled"; the two errors differ from each other and
from "Invalid credentials", so a caller CAN tell the cases apart. -/
theorem auth_errors_distinguish_absent_from_inactive :
    (∀ (verify : String → String → Bool) (now : Nat) (st : AuthState) (u p : String),
      alookup u st.users = none →
      (authenticate verify now st u p).1 = .failure "User not found") ∧
    (∀ (verify : String → String → Bool) (now : Nat) (st : AuthState) (u p : String)
       (user : UserM), alookup u st.users = some user → user.active = false →
      (authenticate verify now st u p).1 = .failure "User account is disabled") ∧
    (AuthResult.failure "User not found" ≠ AuthResult.failure "User account is disabled") ∧
    (AuthResult.failure "User not found" ≠ AuthResult.failure "Invalid credentials") ∧
    (AuthResult.failure "User account is disabled" ≠ AuthResult.failure "Invalid credentials") := by
  refine ⟨?_, ?_, by decide, by decide, by decide⟩
  · intro verify now st u p h
    unfold authenticate
    rw [h]
  · intro verify now st u p user h hinact
    unfold authenticate
    rw [h]
    dsimp only
    rw [if_pos hinact]

/-- **C5 witness.** In a state whose only user "alice" is inactive,
looking up the absent "bob" yields "User not found" and "alice" yields
"User account is disabled". -/
theorem auth_errors_distinguish_witness :
    (authenticate verifyEq 0 stInactive "bob" "x").1 = .failure "User not found" ∧
    (authenticate verifyEq 0 stInactive "alice" "x").1 = .failure "User account is disabled" :=
  ⟨auth_errors_distinguish_absent_from_inactive.1 verifyEq 0 stInactive "bob" "x" (by decide),
   auth_errors_distinguish_absent_from_inactive.2.1 verifyEq 0 stInactive "alice" "x"
     aliceInactive (by decide) rfl⟩

/-- **C5 counterexample.** The absent user "bob" and the inactive user
"alice" receive different errors, and neither receives
"Invalid credentials" — refuting the claim that both cases return the
same invalid-credentials error. -/
theorem same_invalid_credentials_counterexample :
    (authenticate verifyEq 0 stInactive "bob" "x").1 ≠
      (authenticate verifyEq 0 stInactive "alice" "x").1 ∧
    (authenticate verifyEq 0 stInactive "bob" "x").1 ≠ .failure "Invalid credentials" ∧
    (authenticate verifyEq 0 stInactive "alice" "x").1 ≠ .failure "Invalid credentials" :=
  ⟨by decide, by decide, by decide⟩

/-! ### C10: authentication while locked out -/

/-- **C10 (amended).** If `authenticate` is called for an existing,
*active* user whose lockout deadline lies in the future, it returns the
locked error and the state entirely unchanged: the failure counter is not
incremented, the deadline is not extended, and no token is issued,
regardless of the supplied password.  (For an inactive user the
disabled-account error takes precedence over the locked error.) -/
theorem locked_account_returns_locked_unchanged
    (verify : String → String → Bool) (now : Nat) (st : AuthState)
    (u p : String) (user : UserM) (n lockUntil : Nat)
    (huser : alookup u st.users = some user) (hact : user.active = true)
    (hatt : alookup u st.login_attempts = some (n, some lockUntil))
    (hnow : now < lockUntil) :
    authenticate verify now st u p = (.failure "Account temporarily locked", st) := by
  unfold authenticate
  rw [huser]
  dsimp only
  rw [if_neg (by simp [hact]), hatt]
  dsimp only
  rw [if_pos (by simp [hnow])]

/-- **C10 witness.** At instant 50, with "alice" active and locked until
100, authenticating with the *correct* password still returns the locked
error and leaves the state untouched. -/
theorem locked_account_returns_locked_unchanged_witness :
    authenticate verifyEq 50 stActiveLocked "alice" "pw" =
      (.failure "Account temporarily locked", stActiveLocked) :=
  locked_account_returns_locked_unchanged verifyEq 50 stActiveLocked "alice" "pw"
    aliceActive 3 100 (by decide) rfl (by decide) (by decide)

/-- **C10 counterexample.** For an *inactive* user whose lockout deadline
lies in the future, `authenticate` returns the disabled-account error,
not the locked error: the claim fails as stated for such users. -/
theorem locked_claim_counterexample :
    alookup "alice" stInactiveLocked.login_attempts = some (3, some 100) ∧
    (50 : Nat) < 100 ∧
    (authenticate verifyEq 50 stInactiveLocked "alice" "pw").1 ≠
      .failure "Account temporarily locked" :=
  ⟨by decide, by decide, by decide⟩

/-! ### C6: lockout after repeated failures, reset on success -/

/-- Running `max_login_attempts - n` consecutive failing calls for an
active user whose attempt entry is `(n, no lockout)` (or absent with
`n = 0`) leaves the user table untouched and installs a lockout deadline
`last call's instant + lockout_duration` with the counter at the
maximum. -/
theorem authRun_locks (verify : String → String → Bool) (u : String) (user : UserM)
    (hact : user.active = true) :
    ∀ (calls : List (Nat × String)) (st : AuthState) (n : Nat),
      alookup u st.users = some user →
      (∀ c ∈ calls, verify c.2 user.password_hash = false) →
      (alookup u st.login_attempts = some (n, none) ∨
        (alookup u st.login_attempts = none ∧ n = 0)) →
      n + calls.length = st.max_login_attempts →
      ∀ last, calls.getLast? = some last →
      (authRun verify u st calls).users = st.users ∧
      (authRun verify u st calls).max_login_attempts = st.max_login_attempts ∧
      (authRun verify u st calls).lockout_duration = st.lockout_duration ∧
      alookup u (authRun verify u st calls).login_attempts =
        some (st.max_login_attempts, some (last.1 + st.lockout_duration)) := by
  intro calls
  induction calls with
  | nil =>
    intro st n _ _ _ _ last hlast
    simp at hlast
  | cons c rest ih =>
    intro st n husers hfail hatt hcount last hlast
    obtain ⟨t, pw⟩ := c
    have hpw : verify pw user.password_hash = false := hfail (t, pw) (by simp)
    have hstep : authenticate verify t st u pw =
        (.failure "Invalid credentials",
         { st with login_attempts :=
             ainsert u (n + 1,
               if st.max_login_attempts ≤ n + 1 then some (t + st.lockout_duration)
               else none) st.login_attempts }) := by
      unfold authenticate
      rw [husers]
      dsimp only
      rw [if_neg (by simp [hact])]
      rcases hatt with h | ⟨h, hn⟩
      · rw [h]
        dsimp only
        rw [if_neg (by simp), if_pos (by simp [hpw])]
        dsimp only [Option.getD]
      · rw [h]
        dsimp only
        rw [if_neg (by simp), if_pos (by simp [hpw])]
        subst hn
        dsimp only [Option.getD]
    cases rest with
    | nil =>
      have hlast2 : last = (t, pw) := by
        simp at hlast
        exact hlast.symm
      have hmax : st.max_login_attempts ≤ n + 1 := by
        simp at hcount
        omega
      have hn1 : n + 1 = st.max_login_attempts := by
        simp at hcount
        omega
      have hrun : authRun verify u st [(t, pw)] = (authenticate verify t st u pw).2 := rfl
      rw [hrun, hstep]
      dsimp only
      rw [if_pos hmax]
      refine ⟨rfl, rfl, rfl, ?_⟩
      rw [alookup_ainsert_self, hn1, hlast2]
    | cons r rs =>
      rw [List.getLast?_cons_cons] at hlast
      have hmaxgt : ¬ (st.max_login_attempts ≤ n + 1) := by
        simp at hcount
        omega
      have hstep2 : (authenticate verify t st u pw).2 =
          { st with login_attempts := ainsert u (n + 1, none) st.login_attempts } := by
        rw [hstep]
        dsimp only
        rw [if_neg hmaxgt]
      have hrun : authRun verify u st ((t, pw) :: r :: rs) =
          authRun verify u (authenticate verify t st u pw).2 (r :: rs) := rfl
      have hres := ih { st with login_attempts := ainsert u (n + 1, none) st.login_attempts }
        (n + 1) husers
        (fun c hc => hfail c (List.mem_cons_of_mem _ hc))
        (Or.inl (alookup_ainsert_self u (n + 1, none) st.login_attempts))
        (by simp at hcount ⊢; omega)
        last hlast
      rw [hrun, hstep2]
      exact hres

/-- **C6.** After `max_login_attempts` consecutive failed `authenticate`
calls for an existing, active user with a clean attempt record, every
authentication attempt for that user made before
`last failure's instant + lockout_duration` returns the locked error; and
a successful authentication while not locked out removes the
consecutive-failure entry (resetting the counter to zero). -/
theorem lockout_after_max_failures_and_reset :
    (∀ (verify : String → String → Bool) (st : AuthState) (u p : String)
       (user : UserM) (calls : List (Nat × String)) (last : Nat × String) (t : Nat),
      alookup u st.users = some user → user.active = true →
      alookup u st.login_attempts = none →
      (∀ c ∈ calls, verify c.2 user.password_hash = false) →
      calls.length = st.max_login_attempts →
      calls.getLast? = some last →
      t < last.1 + st.lockout_duration →
      (authenticate verify t (authRun verify u st calls) u p).1 =
        .failure "Account temporarily locked") ∧
    (∀ (verify : String → String → Bool) (now : Nat) (st : AuthState) (u p : String)
       (user : UserM) (n : Nat) (lk : Option Nat),
      alookup u st.users = some user → user.active = true →
      alookup u st.login_attempts = some (n, lk) →
      (∀ ul, lk = some ul → ul ≤ now) →
      verify p user.password_hash = true →
      (authenticate verify now st u p).1 = .token user.id ∧
      alookup u (authenticate verify now st u p).2.login_attempts = none) := by
  constructor
  · intro verify st u p user calls last t husers hact hatt hfail hlen hlast ht
    obtain ⟨husers2, hmax2, hdur2, hatt2⟩ :=
      authRun_locks verify u user hact calls st 0 husers hfail
        (Or.inr ⟨hatt, rfl⟩) (by omega) last hlast
    unfold authenticate
    rw [husers2, husers]
    dsimp only
    rw [if_neg (by simp [hact]), hatt2]
    dsimp only
    rw [if_pos (by simp [ht])]
  · intro verify now st u p user n lk husers hact hatt hlk hpw
    unfold authenticate
    rw [husers]
    dsimp only
    rw [if_neg (by simp [hact]), hatt]
    have hlocked : ¬ ((match some (n, lk) with
        | some (_, some lockUntil) => decide (now < lockUntil)
        | _ => false) = true) := by
      cases lk with
      | none => simp
      | some ul =>
        have := hlk ul rfl
        simp
        omega
    rw [if_neg hlocked, if_neg (by simp [hpw])]
    exact ⟨rfl, alookup_aerase_self u st.login_attempts⟩

/-- **C6 witness.** With `max_login_attempts = 1` and
`lockout_duration = 10`: after one failed attempt at instant 0,
authenticating "alice" at instant 5 is refused as locked; and in a state
with one recorded failure and no lockout, the correct password yields a
token and clears the attempt entry. -/
theorem lockout_after_max_failures_and_reset_witness :
    (authenticate verifyEq 5 (authRun verifyEq "alice" stFresh [(0, "bad")]) "alice" "x").1 =
      .failure "Account temporarily locked" ∧
    (authenticate verifyEq 0 stOneFailure "alice" "pw").1 = .token "alice" ∧
    alookup "alice" (authenticate verifyEq 0 stOneFailure "alice" "pw").2.login_attempts = none := by
  refine ⟨?_, ?_⟩
  · exact lockout_after_max_failures_and_reset.1 verifyEq stFresh "alice" "x"
      aliceActive [(0, "bad")] (0, "bad") 5 (by decide) rfl rfl (by decide)
      rfl (by decide) (by decide)
  · exact lockout_after_max_failures_and_reset.2 verifyEq 0 stOneFailure "alice" "pw"
      aliceActive 1 none (by decide) rfl (by decide)
      (fun ul h => by cases h) (by decide)

end Acropolis
